import Mathlib

/-!
Shallow embedding of the tech-jobs scraper pipeline
(src/services/scrap/main.py) and proofs of the specification claims.

The pipeline fetches job postings per configured company board, filters
them by a keyword test on the title, normalizes each relevant posting
into a canonical document, and commits all staged documents as a single
batch.  Python string primitives (`lower`, `capitalize`, `title`) and
the regex whole-word search `\b<kw>\b` are modelled ASCII-faithfully,
which covers the configured vocabulary and the inputs considered here.
-/

namespace Scrap

/-- Model of Python `str.lower()` (ASCII-faithful). -/
def pyLower (s : String) : String := ⟨s.data.map Char.toLower⟩

/-- Model of Python `str.capitalize()`: first character upper-cased,
the rest lower-cased (ASCII-faithful). -/
def pyCapitalize (s : String) : String :=
  match s.data with
  | [] => ⟨[]⟩
  | c :: cs => ⟨c.toUpper :: cs.map Char.toLower⟩

/-- Helper for `pyTitle`: the Boolean records whether the previous
character was alphabetic. -/
def pyTitleAux : Bool → List Char → List Char
  | _, [] => []
  | prevAlpha, c :: cs =>
    if c.isAlpha then
      (if prevAlpha then c.toLower else c.toUpper) :: pyTitleAux true cs
    else
      c :: pyTitleAux false cs

/-- Model of Python `str.title()`: each alphabetic character that follows
a non-alphabetic one is upper-cased, other alphabetic characters are
lower-cased (ASCII-faithful). -/
def pyTitle (s : String) : String := ⟨pyTitleAux false s.data⟩

/-- Model of the regex `\w` character class (ASCII-faithful):
letters, digits and underscore. -/
def isWordChar (c : Char) : Bool := c.isAlphanum || c == '_'

/-- The last character of the text before a match position, if any,
is not a word character (the `\b` condition on the left). -/
def noWordCharAtLast (pre : List Char) : Bool :=
  match pre.getLast? with
  | none => true
  | some c => !isWordChar c

/-- The first character of the text after a match, if any, is not a
word character (the `\b` condition on the right). -/
def noWordCharAtHead (post : List Char) : Bool :=
  match post.head? with
  | none => true
  | some c => !isWordChar c

/-- Executable prefix test on character lists. -/
def matchesPrefix : List Char → List Char → Bool
  | [], _ => true
  | _ :: _, [] => false
  | a :: as, b :: bs => a == b && matchesPrefix as bs

theorem matchesPrefix_iff (n h : List Char) :
    matchesPrefix n h = true ↔ ∃ t, h = n ++ t := by
  induction n generalizing h with
  | nil => simp [matchesPrefix]
  | cons a as ih =>
    cases h with
    | nil => simp [matchesPrefix]
    | cons b bs =>
      simp only [matchesPrefix, Bool.and_eq_true, beq_iff_eq, ih, List.cons_append,
        List.cons.injEq]
      constructor
      · rintro ⟨rfl, t, rfl⟩
        exact ⟨t, rfl, rfl⟩
      · rintro ⟨t, rfl, rfl⟩
        exact ⟨rfl, t, rfl⟩

/-- One candidate position of the regex search `\b<needle>\b` over `hay`:
the needle matches at offset `i` and both `\b` conditions hold.  This is
faithful for needles that begin and end with word characters, which is
true of every configured keyword. -/
def boundaryAt (needle hay : List Char) (i : Nat) : Bool :=
  matchesPrefix needle (hay.drop i)
    && noWordCharAtLast (hay.take i)
    && noWordCharAtHead (hay.drop (i + needle.length))

/-- Model of `re.search(rf'\b{re.escape(kw)}\b', hay)`: some offset of
`hay` admits a whole-word match of `needle`. -/
def wholeWordMatch (needle hay : List Char) : Bool :=
  (List.range (hay.length + 1)).any (boundaryAt needle hay)

/-- Model of the Python substring test `needle in hay`. -/
def containsSubstring (needle hay : List Char) : Bool :=
  (List.range (hay.length + 1)).any (fun i => matchesPrefix needle (hay.drop i))

/-- Declarative reading of a whole-word occurrence: `hay` splits as
`pre ++ needle ++ post` where `pre` does not end in a word character and
`post` does not start with one. -/
def WholeWordOccurs (needle hay : List Char) : Prop :=
  ∃ pre post, hay = pre ++ needle ++ post
    ∧ noWordCharAtLast pre = true ∧ noWordCharAtHead post = true

theorem wholeWordMatch_iff (needle hay : List Char) :
    wholeWordMatch needle hay = true ↔ WholeWordOccurs needle hay := by
  constructor
  · intro hw
    simp only [wholeWordMatch, List.any_eq_true, List.mem_range] at hw
    obtain ⟨i, hi, hb⟩ := hw
    simp only [boundaryAt, Bool.and_eq_true] at hb
    obtain ⟨⟨hpre, hlast⟩, hhead⟩ := hb
    obtain ⟨t, ht⟩ := (matchesPrefix_iff _ _).mp hpre
    refine ⟨hay.take i, t, ?_, hlast, ?_⟩
    · conv_lhs => rw [← List.take_append_drop i hay, ht]
      rw [List.append_assoc]
    · have hdrop : hay.drop (i + needle.length) = t := by
        rw [← List.drop_drop, ht, List.drop_left]
      rwa [hdrop] at hhead
  · rintro ⟨pre, post, rfl, h1, h2⟩
    simp only [wholeWordMatch, List.any_eq_true, List.mem_range]
    refine ⟨pre.length, ?_, ?_⟩
    · simp only [List.length_append]
      omega
    · simp only [boundaryAt, Bool.and_eq_true]
      refine ⟨⟨?_, ?_⟩, ?_⟩
      · rw [List.append_assoc, List.drop_left]
        exact (matchesPrefix_iff _ _).mpr ⟨post, rfl⟩
      · rw [List.append_assoc, List.take_left]
        exact h1
      · have : pre.length + needle.length = (pre ++ needle).length := by
          simp [List.length_append]
        rw [this, List.drop_left]
        exact h2

theorem containsSubstring_iff (needle hay : List Char) :
    containsSubstring needle hay = true ↔ ∃ pre post, hay = pre ++ needle ++ post := by
  constructor
  · intro hw
    simp only [containsSubstring, List.any_eq_true, List.mem_range] at hw
    obtain ⟨i, hi, hb⟩ := hw
    obtain ⟨t, ht⟩ := (matchesPrefix_iff _ _).mp hb
    refine ⟨hay.take i, t, ?_⟩
    conv_lhs => rw [← List.take_append_drop i hay, ht]
    rw [List.append_assoc]
  · rintro ⟨pre, post, rfl⟩
    simp only [containsSubstring, List.any_eq_true, List.mem_range]
    refine ⟨pre.length, ?_, ?_⟩
    · simp only [List.length_append]
      omega
    · rw [List.append_assoc, List.drop_left]
      exact (matchesPrefix_iff _ _).mpr ⟨post, rfl⟩

/-- Model of `html.unescape` restricted to the five standard named/numeric
entities that cover ASCII HTML; other ampersands pass through unchanged
(third-party library behaviour, modelled ASCII-faithfully). -/
def htmlUnescape : List Char → List Char
  | [] => []
  | c :: rest =>
    if c == '&' then
      if matchesPrefix "amp;".data rest then '&' :: htmlUnescape (rest.drop 4)
      else if matchesPrefix "lt;".data rest then '<' :: htmlUnescape (rest.drop 3)
      else if matchesPrefix "gt;".data rest then '>' :: htmlUnescape (rest.drop 3)
      else if matchesPrefix "quot;".data rest then '"' :: htmlUnescape (rest.drop 5)
      else if matchesPrefix "#39;".data rest then Char.ofNat 39 :: htmlUnescape (rest.drop 4)
      else c :: htmlUnescape rest
    else c :: htmlUnescape rest
termination_by l => l.length
decreasing_by all_goals (simp [List.length_drop]; try omega)

/-- Tag stripper used to model `BeautifulSoup(...).get_text`:
everything between `<` and `>` is replaced by a separating space.
The Boolean records whether scanning is currently inside a tag. -/
def stripTagsAux : Bool → List Char → List Char
  | _, [] => []
  | inTag, c :: rest =>
    if c == '<' then ' ' :: stripTagsAux true rest
    else if inTag then
      if c == '>' then stripTagsAux false rest else stripTagsAux true rest
    else c :: stripTagsAux false rest

/-- Model of `soup.get_text(separator=' ', strip=True)`: markup removed,
remaining text split on whitespace and re-joined with single spaces
(this also yields the leading/trailing strip). The boilerplate-`div`
removal of the source is inside the third-party parse and is modelled at
this level of abstraction; no claim below depends on it. -/
def soupGetText (s : List Char) : String :=
  String.intercalate " "
    (((String.mk (stripTagsAux false s)).split Char.isWhitespace).filter (fun w => w ≠ ""))

/-- Embedding of `clean_html_text` (src/services/scrap/main.py:38-45).
`none` models a `None`/missing value; `if not raw_html` is true exactly
for `None` and the empty string. -/
def clean_html_text (raw_html : Option String) : String :=
  match raw_html with
  | none => "Not specified"
  | some s => if s = "" then "Not specified" else soupGetText (htmlUnescape s.data)

/-- The configured source slugs (src/services/scrap/main.py:30). -/
def TARGET_COMPANIES : List String := ["figma", "discord", "dropbox", "duolingo"]

/-- The configured keyword vocabulary (src/services/scrap/main.py:31-35). -/
def TECH_KEYWORDS : List String :=
  ["software", "developer", "engineer", "data", "analytics", "analyst",
   "machine learning", "python", "full stack", "frontend", "backend",
   "cloud", "devops", "security", "it", "artificial intelligence", "ai", "react"]

/-- Embedding of `extract_tags` (src/services/scrap/main.py:47-50).
`list(set(...))` deduplicates with unspecified order; it is modelled by
`List.dedup`, and no claim depends on the order. -/
def extract_tags (title description : String) : List String :=
  let combined_text := pyLower (title ++ " " ++ description)
  let found_tags :=
    (TECH_KEYWORDS.filter (fun kw => wholeWordMatch kw.data combined_text.data)).map pyTitle
  found_tags.dedup

/-- Embedding of the strict tech filter on titles
(src/services/scrap/main.py:73-78): some configured keyword whole-word
matches the lower-cased title. -/
def relevantTitle (title : String) : Bool :=
  TECH_KEYWORDS.any (fun kw => wholeWordMatch kw.data (pyLower title).data)

/-- One raw upstream posting, as read from the `jobs` array of a source
response.  `location` is `none` when the `location` key is absent, and
`some none` when the location object lacks a `name`; `content` is `none`
when the key is absent or null (both are falsy in the source). -/
structure RawJob where
  id : String
  title : String
  location : Option (Option String)
  absolute_url : Option String
  content : Option String
  updated_at : Option String
deriving DecidableEq

/-- Provenance block of a canonical document
(src/services/scrap/main.py:94). -/
structure SourceMeta where
  sourceId : String
  externalId : String
deriving DecidableEq

/-- The `normalized` block of a canonical document
(src/services/scrap/main.py:103). -/
structure NormalizedMeta where
  companyLower : String
  titleLower : String
deriving DecidableEq

/-- The canonical job document (src/services/scrap/main.py:85-104). -/
structure JobDoc where
  title : String
  company : String
  location : String
  jobType : String
  applyUrl : Option String
  jdText : String
  tags : List String
  source : String
  sourceMeta : SourceMeta
  visibility : String
  instituteId : Option String
  ownerUid : Option String
  status : String
  postedAt : String
  lastSeenAt : String
  createdAt : String
  updatedAt : String
  normalized : NormalizedMeta
deriving DecidableEq

/-- Embedding of `external_id = f"gh-{job_id}"`
(src/services/scrap/main.py:80-81).  The prefix is the literal `gh`,
independent of the company being scraped. -/
def externalId (job : RawJob) : String := "gh-" ++ job.id

/-- Embedding of `job.get('location', {}).get('name', 'Remote')`
(src/services/scrap/main.py:88). -/
def deriveLocation : Option (Option String) → String
  | some (some name) => name
  | _ => "Remote"

/-- Embedding of the `job_document` construction
(src/services/scrap/main.py:80-104) for one raw posting, its company
slug, and the cycle timestamp `now_iso`. -/
def buildJobDocument (company now : String) (job : RawJob) : JobDoc :=
  let title_lower := pyLower job.title
  let clean_description := clean_html_text job.content
  { title := job.title
    company := pyCapitalize company
    location := deriveLocation job.location
    jobType := if containsSubstring "intern".data title_lower.data then "Internship" else "Full-time"
    applyUrl := job.absolute_url
    jdText := clean_description
    tags := extract_tags job.title clean_description
    source := "scraped"
    sourceMeta := { sourceId := "scrape_sources/greenhouse", externalId := externalId job }
    visibility := "public"
    instituteId := none
    ownerUid := none
    status := "open"
    postedAt := job.updated_at.getD now
    lastSeenAt := now
    createdAt := now
    updatedAt := now
    normalized := { companyLower := pyLower company, titleLower := title_lower } }

/-- Outcome of the one `requests.get` issued for a source:
either the request raises (transport failure) or it yields a response
with a status code and a parsed `jobs` array. -/
inductive FetchResult where
  | transportError
  | response (status : Nat) (jobs : List RawJob)
deriving DecidableEq

/-- The per-posting loop body (src/services/scrap/main.py:72-109) over
the postings of one 200-source, parameterised by the normalization step
so that an unexpected normalization failure (an exception in the source)
can be modelled as `Except.error`.  Irrelevant titles are skipped before
normalization; each staged document is keyed by its `externalId`. -/
def processJobs (normalize : RawJob → Except String JobDoc) :
    List RawJob → Except String (List (String × JobDoc))
  | [] => .ok []
  | job :: rest =>
    if relevantTitle job.title then
      match normalize job with
      | .error e => .error e
      | .ok d =>
        match processJobs normalize rest with
        | .error e => .error e
        | .ok ds => .ok ((externalId job, d) :: ds)
    else processJobs normalize rest

/-- The per-source loop (src/services/scrap/main.py:67-109): a transport
failure raises out of the whole cycle; a non-200 status contributes
nothing; a 200 response has its postings filtered and normalized in
order. -/
def collectDocs (normalize : String → RawJob → Except String JobDoc) :
    List (String × FetchResult) → Except String (List (String × JobDoc))
  | [] => .ok []
  | (_, FetchResult.transportError) :: _ => .error "transport failure"
  | (company, FetchResult.response status jobs) :: rest =>
    if status == 200 then
      match processJobs (normalize company) jobs with
      | .error e => .error e
      | .ok ds =>
        match collectDocs normalize rest with
        | .error e => .error e
        | .ok ds2 => .ok (ds ++ ds2)
    else collectDocs normalize rest

/-- Observable outcome of one sync cycle: whether the endpoint returned
success (`ok = true`) or raised to the 500 handler (`ok = false`), the
reported `synced_count`, and the list of batch commits issued against
the store (each commit carrying the documents it writes). -/
structure CycleOutcome where
  ok : Bool
  syncedCount : Nat
  commits : List (List (String × JobDoc))
deriving DecidableEq

/-- Embedding of `sync_scraped_jobs_to_firebase`
(src/services/scrap/main.py:57-121): stage documents across the
configured sources; commit once iff at least one document was staged;
any exception escaping the loop yields the failure outcome with no
commit. -/
def runCycle (normalize : String → RawJob → Except String JobDoc)
    (fetches : List (String × FetchResult)) : CycleOutcome :=
  match collectDocs normalize fetches with
  | .error _ => { ok := false, syncedCount := 0, commits := [] }
  | .ok docs =>
    if 0 < docs.length then { ok := true, syncedCount := docs.length, commits := [docs] }
    else { ok := true, syncedCount := 0, commits := [] }

/-- The actual normalization step of the source, which never raises in
this embedding: build the canonical document. -/
def realNormalize (now company : String) (job : RawJob) : Except String JobDoc :=
  .ok (buildJobDocument company now job)

/-- A sample raw posting used to instantiate theorems with hypotheses. -/
def sampleJob : RawJob :=
  { id := "123"
    title := "Software Engineering Intern"
    location := some (some "San Francisco, CA")
    absolute_url := some "https://boards.greenhouse.io/figma/jobs/123"
    content := some "&lt;p&gt;Work on Python and machine learning.&lt;/p&gt;"
    updated_at := some "2024-01-01T00:00:00+00:00" }

/-- A sample raw posting whose title fails the relevance filter. -/
def officeJob : RawJob :=
  { id := "456"
    title := "Office Manager"
    location := none
    absolute_url := none
    content := none
    updated_at := none }

/-! ## Helper lemmas -/

theorem string_append_right_inj (s t₁ t₂ : String) : s ++ t₁ = s ++ t₂ ↔ t₁ = t₂ := by
  constructor
  · intro h
    have hd : s.data ++ t₁.data = s.data ++ t₂.data := by
      rw [← String.data_append, ← String.data_append, h]
    obtain ⟨l₁⟩ := t₁
    obtain ⟨l₂⟩ := t₂
    exact congrArg String.mk (List.append_cancel_left hd)
  · intro h
    rw [h]

/-- The title-cased forms of the configured keywords are pairwise
distinct, so title-casing is injective on the vocabulary. -/
theorem tech_keywords_titles_nodup : (TECH_KEYWORDS.map pyTitle).Nodup := by decide

theorem collectDocs_skip_non200 (normalize : String → RawJob → Except String JobDoc)
    (c : String) (s : Nat) (jobs : List RawJob) (post : List (String × FetchResult))
    (h : (s == 200) = false) (pre : List (String × FetchResult)) :
    collectDocs normalize (pre ++ (c, FetchResult.response s jobs) :: post)
      = collectDocs normalize (pre ++ post) := by
  induction pre with
  | nil => simp [collectDocs, h]
  | cons hd tl ih =>
    obtain ⟨c', fr⟩ := hd
    cases fr with
    | transportError => simp [collectDocs]
    | response s' jobs' =>
      simp only [List.cons_append, collectDocs]
      have ih' : collectDocs normalize (tl.append ((c, FetchResult.response s jobs) :: post))
          = collectDocs normalize (tl.append post) := ih
      rw [ih']

theorem collectDocs_error_of_transport (normalize : String → RawJob → Except String JobDoc)
    (c : String) (post : List (String × FetchResult)) (pre : List (String × FetchResult)) :
    ∃ e, collectDocs normalize (pre ++ (c, FetchResult.transportError) :: post)
      = Except.error e := by
  induction pre with
  | nil => exact ⟨"transport failure", rfl⟩
  | cons hd tl ih =>
    obtain ⟨c', fr⟩ := hd
    cases fr with
    | transportError => exact ⟨"transport failure", rfl⟩
    | response s' jobs' =>
      obtain ⟨e, he⟩ := ih
      cases hs : (s' == 200) with
      | false =>
        refine ⟨e, ?_⟩
        simp [collectDocs, hs, he]
      | true =>
        cases hp : processJobs (normalize c') jobs' with
        | error e' =>
          refine ⟨e', ?_⟩
          simp [collectDocs, hs, hp]
        | ok ds =>
          refine ⟨e, ?_⟩
          simp [collectDocs, hs, hp, he]

theorem processJobs_ok_normalize_ok (normalize : RawJob → Except String JobDoc)
    (jobs : List RawJob) (ds : List (String × JobDoc))
    (h : processJobs normalize jobs = Except.ok ds)
    (job : RawJob) (hj : job ∈ jobs) (hrel : relevantTitle job.title = true) :
    ∃ d, normalize job = Except.ok d := by
  induction jobs generalizing ds with
  | nil => cases hj
  | cons hd tl ih =>
    rcases List.mem_cons.mp hj with rfl | hmem
    · rw [processJobs, if_pos hrel] at h
      cases hn : normalize job with
      | error e => rw [hn] at h; cases h
      | ok d => exact ⟨d, rfl⟩
    · by_cases hr : relevantTitle hd.title = true
      · rw [processJobs, if_pos hr] at h
        cases hn : normalize hd with
        | error e => rw [hn] at h; cases h
        | ok d =>
          rw [hn] at h
          cases hrec : processJobs normalize tl with
          | error e => rw [hrec] at h; cases h
          | ok ds' => exact ih ds' hrec hmem
      · rw [processJobs, if_neg hr] at h
        exact ih ds h hmem

theorem collectDocs_ok_processJobs_ok (normalize : String → RawJob → Except String JobDoc)
    (fetches : List (String × FetchResult)) (ds : List (String × JobDoc))
    (h : collectDocs normalize fetches = Except.ok ds)
    (c : String) (jobs : List RawJob)
    (hmem : (c, FetchResult.response 200 jobs) ∈ fetches) :
    ∃ ds', processJobs (normalize c) jobs = Except.ok ds' := by
  induction fetches generalizing ds with
  | nil => cases hmem
  | cons hd tl ih =>
    obtain ⟨c', fr⟩ := hd
    cases fr with
    | transportError => rw [collectDocs] at h; cases h
    | response s' jobs' =>
      rcases List.mem_cons.mp hmem with heq | hmem'
      · injection heq with h1 h2
        injection h2 with h3 h4
        rw [h1, h4]
        rw [collectDocs, ← h3] at h
        simp only [beq_self_eq_true, if_true] at h
        cases hp : processJobs (normalize c') jobs' with
        | error e => rw [hp] at h; cases h
        | ok ds' => exact ⟨ds', rfl⟩
      · rw [collectDocs] at h
        cases hs : (s' == 200) with
        | false =>
          rw [hs] at h
          simp only [Bool.false_eq_true, if_false] at h
          exact ih ds h hmem'
        | true =>
          rw [hs] at h
          simp only [if_true] at h
          cases hp : processJobs (normalize c') jobs' with
          | error e => rw [hp] at h; cases h
          | ok ds1 =>
            rw [hp] at h
            cases hrec : collectDocs normalize tl with
            | error e => rw [hrec] at h; cases h
            | ok ds2 => exact ih ds2 hrec hmem'

/-! ## Claims -/

/-- C1 (counterexample): two raw postings with the same upstream id
`123` from the distinct configured sources `figma` and `discord` are
normalized to canonical documents with the *same* `externalId`
(`gh-123`), because the source derives the key with the fixed literal
prefix `gh` rather than a per-source prefix. -/
theorem externalId_collision_across_sources :
    "figma" ≠ "discord"
    ∧ (buildJobDocument "figma" "2024-06-01T00:00:00+00:00"
          { id := "123", title := "Software Engineer", location := none,
            absolute_url := none, content := none, updated_at := none }).sourceMeta.externalId
      = (buildJobDocument "discord" "2024-06-01T00:00:00+00:00"
          { id := "123", title := "Backend Developer", location := none,
            absolute_url := none, content := none, updated_at := none }).sourceMeta.externalId := by
  exact ⟨by decide, rfl⟩

/-- C1 (amended): the `externalId` of every canonical document is
`gh-<rawId>`, a function of the raw posting's id alone; documents built
from any two postings (from any sources, at any cycle times) share an
`externalId` exactly when they share a raw id.  In particular distinct
raw ids give distinct `externalId`s, but different sources alone do
not. -/
theorem externalId_depends_only_on_rawId (c₁ c₂ now₁ now₂ : String) (j₁ j₂ : RawJob) :
    (buildJobDocument c₁ now₁ j₁).sourceMeta.externalId = "gh-" ++ j₁.id
    ∧ ((buildJobDocument c₁ now₁ j₁).sourceMeta.externalId
          = (buildJobDocument c₂ now₂ j₂).sourceMeta.externalId
        ↔ j₁.id = j₂.id) := by
  refine ⟨rfl, ?_⟩
  show externalId j₁ = externalId j₂ ↔ j₁.id = j₂.id
  exact string_append_right_inj "gh-" j₁.id j₂.id

/-- C2 (counterexample): a transport-level failure of the HTTP request
for the first source does *not* leave the cycle running — the exception
escapes to the endpoint's catch-all handler, the cycle fails, the
healthy second source contributes nothing, and no commit is issued. -/
theorem transport_failure_fails_cycle :
    (runCycle (realNormalize "2024-06-01T00:00:00+00:00")
        [("figma", FetchResult.transportError),
         ("discord", FetchResult.response 200 [sampleJob])]).ok = false
    ∧ (runCycle (realNormalize "2024-06-01T00:00:00+00:00")
        [("figma", FetchResult.transportError),
         ("discord", FetchResult.response 200 [sampleJob])]).commits = [] :=
  ⟨rfl, rfl⟩

/-- C2 (amended): a non-200 response for one source makes that source
contribute zero postings while the cycle proceeds exactly as if the
source were absent; a transport-level failure of the HTTP request,
however, escalates to a cycle-level failure (the cycle result is the
failure outcome and no commit is issued). -/
theorem per_source_failure_policy (normalize : String → RawJob → Except String JobDoc)
    (pre post : List (String × FetchResult)) (c : String) (s : Nat)
    (jobs : List RawJob) (h : s ≠ 200) :
    runCycle normalize (pre ++ (c, FetchResult.response s jobs) :: post)
        = runCycle normalize (pre ++ post)
    ∧ (runCycle normalize (pre ++ (c, FetchResult.transportError) :: post)).ok = false
    ∧ (runCycle normalize (pre ++ (c, FetchResult.transportError) :: post)).commits = [] := by
  have hs : (s == 200) = false := by
    simpa using h
  refine ⟨?_, ?_, ?_⟩
  · unfold runCycle
    rw [collectDocs_skip_non200 normalize c s jobs post hs pre]
  · obtain ⟨e, he⟩ := collectDocs_error_of_transport normalize c post pre
    simp [runCycle, he]
  · obtain ⟨e, he⟩ := collectDocs_error_of_transport normalize c post pre
    simp [runCycle, he]

/-- C2 witness: instantiation of the amended per-source failure policy
at a 404 source following one healthy source. -/
theorem per_source_failure_policy_witness :
    runCycle (realNormalize "2024-06-01T00:00:00+00:00")
        [("dropbox", FetchResult.response 200 [sampleJob]),
         ("figma", FetchResult.response 404 [officeJob])]
      = runCycle (realNormalize "2024-06-01T00:00:00+00:00")
        [("dropbox", FetchResult.response 200 [sampleJob])]
    ∧ (runCycle (realNormalize "2024-06-01T00:00:00+00:00")
        [("dropbox", FetchResult.response 200 [sampleJob]),
         ("figma", FetchResult.transportError)]).ok = false
    ∧ (runCycle (realNormalize "2024-06-01T00:00:00+00:00")
        [("dropbox", FetchResult.response 200 [sampleJob]),
         ("figma", FetchResult.transportError)]).commits = [] :=
  per_source_failure_policy (realNormalize "2024-06-01T00:00:00+00:00")
    [("dropbox", FetchResult.response 200 [sampleJob])] [] "figma" 404 [officeJob]
    (by decide)

/-- C3: if normalization fails unexpectedly on any posting that the
cycle reaches (a posting of a 200-source whose title passes the
relevance filter), the cycle result is the failure outcome and no batch
commit is executed, so the store is untouched by the cycle. -/
theorem normalization_failure_aborts_cycle
    (normalize : String → RawJob → Except String JobDoc)
    (fetches : List (String × FetchResult)) (c : String) (jobs : List RawJob)
    (job : RawJob) (e : String)
    (hmem : (c, FetchResult.response 200 jobs) ∈ fetches)
    (hjob : job ∈ jobs)
    (hrel : relevantTitle job.title = true)
    (hfail : normalize c job = Except.error e) :
    (runCycle normalize fetches).ok = false
    ∧ (runCycle normalize fetches).commits = [] := by
  cases h : collectDocs normalize fetches with
  | error e' => simp [runCycle, h]
  | ok ds =>
    exfalso
    obtain ⟨ds', hp⟩ := collectDocs_ok_processJobs_ok normalize fetches ds h c jobs hmem
    obtain ⟨d, hn⟩ := processJobs_ok_normalize_ok (normalize c) jobs ds' hp job hjob hrel
    rw [hfail] at hn
    cases hn

/-- C3 witness: a cycle whose only source returns one relevant posting
and whose normalization step always fails is the failure outcome with no
commit. -/
theorem normalization_failure_aborts_cycle_witness :
    (runCycle (fun _ _ => Except.error "boom")
        [("figma", FetchResult.response 200 [sampleJob])]).ok = false
    ∧ (runCycle (fun _ _ => Except.error "boom")
        [("figma", FetchResult.response 200 [sampleJob])]).commits = [] :=
  normalization_failure_aborts_cycle (fun _ _ => Except.error "boom")
    [("figma", FetchResult.response 200 [sampleJob])] "figma" [sampleJob] sampleJob "boom"
    (List.mem_singleton.mpr rfl) (List.mem_singleton.mpr rfl) (by decide) rfl

/-- C4: for every configured keyword, the tag list returned by
`extract_tags` contains its title-cased form exactly when the keyword
occurs as a whole word (word boundaries on both ends, case-insensitive)
in the lower-cased space-joined concatenation of title and description;
in particular a keyword occurring only inside a larger word is not
tagged.  The returned tag list is duplicate-free. -/
theorem extract_tags_whole_word (kw : String) (hkw : kw ∈ TECH_KEYWORDS)
    (title description : String) :
    (pyTitle kw ∈ extract_tags title description
      ↔ WholeWordOccurs kw.data (pyLower (title ++ " " ++ description)).data)
    ∧ (extract_tags title description).Nodup := by
  constructor
  · rw [← wholeWordMatch_iff]
    simp only [extract_tags, List.mem_dedup, List.mem_map]
    constructor
    · rintro ⟨kw', hkw', heq⟩
      rw [List.mem_filter] at hkw'
      have hk : kw' = kw :=
        List.inj_on_of_nodup_map tech_keywords_titles_nodup hkw'.1 hkw heq
      rw [← hk]
      exact hkw'.2
    · intro hmatch
      exact ⟨kw, List.mem_filter.mpr ⟨hkw, hmatch⟩, rfl⟩
  · exact List.nodup_dedup _

/-- C4 witness: the keyword `python` occurs as a whole word in the
combined text of a sample title and description, and its title-cased
form is extracted. -/
theorem extract_tags_whole_word_witness :
    pyTitle "python" ∈ extract_tags "Senior Python Developer" "Ship code" :=
  ((extract_tags_whole_word "python" (by decide) "Senior Python Developer" "Ship code").1).mpr
    ⟨"senior ".data, " developer ship code".data, by decide, by decide, by decide⟩

/-- C5: the relevance filter accepts a title exactly when some
configured keyword occurs as a whole word in the lower-cased title, and
a posting whose title is rejected is dropped before normalization: the
per-posting loop over it equals the loop without it, for every possible
normalization step, so neither normalization nor the description is
consulted for the decision (`relevantTitle` takes only the title). -/
theorem relevance_filter_spec :
    (∀ title : String, relevantTitle title = true
        ↔ ∃ kw ∈ TECH_KEYWORDS, WholeWordOccurs kw.data (pyLower title).data)
    ∧ (∀ (normalize : RawJob → Except String JobDoc) (job : RawJob) (rest : List RawJob),
        relevantTitle job.title = false →
          processJobs normalize (job :: rest) = processJobs normalize rest) := by
  constructor
  · intro title
    simp only [relevantTitle, List.any_eq_true, wholeWordMatch_iff]
  · intro normalize job rest h
    rw [processJobs, if_neg (by simp [h])]

/-- C5 witness: the title `Office Manager` is rejected and the posting
is skipped before normalization. -/
theorem relevance_filter_spec_witness :
    processJobs (realNormalize "2024-06-01T00:00:00+00:00" "figma") [officeJob]
      = Except.ok [] :=
  relevance_filter_spec.2 (realNormalize "2024-06-01T00:00:00+00:00" "figma")
    officeJob [] (by decide)

/-- C6: when a cycle stages zero documents it issues no batch commit,
still succeeds, and reports a synced count of zero; when it stages at
least one document it issues exactly one batch commit containing all
staged documents and reports their number. -/
theorem batch_commit_semantics (normalize : String → RawJob → Except String JobDoc)
    (fetches : List (String × FetchResult)) (docs : List (String × JobDoc))
    (h : collectDocs normalize fetches = Except.ok docs) :
    (docs.length = 0 →
      runCycle normalize fetches = { ok := true, syncedCount := 0, commits := [] })
    ∧ (0 < docs.length →
      runCycle normalize fetches
        = { ok := true, syncedCount := docs.length, commits := [docs] }) := by
  constructor
  · intro h0
    simp [runCycle, h, h0]
  · intro hpos
    simp [runCycle, h, hpos]

/-- C6 witness: a cycle staging exactly one document issues one commit
of that document and reports a synced count of one. -/
theorem batch_commit_semantics_witness :
    runCycle (realNormalize "2024-06-01T00:00:00+00:00")
        [("figma", FetchResult.response 200 [sampleJob])]
      = { ok := true, syncedCount := 1,
          commits := [[(externalId sampleJob,
            buildJobDocument "figma" "2024-06-01T00:00:00+00:00" sampleJob)]] } :=
  (batch_commit_semantics (realNormalize "2024-06-01T00:00:00+00:00")
      [("figma", FetchResult.response 200 [sampleJob])]
      [(externalId sampleJob,
        buildJobDocument "figma" "2024-06-01T00:00:00+00:00" sampleJob)]
      rfl).2 (by decide)

/-- C7: normalization is a pure function of the raw posting, the source
identity, and the fixed cycle timestamp — two runs on equal inputs yield
identical canonical documents. -/
theorem normalizer_deterministic (c₁ c₂ now₁ now₂ : String) (j₁ j₂ : RawJob)
    (hc : c₁ = c₂) (hnow : now₁ = now₂) (hj : j₁ = j₂) :
    buildJobDocument c₁ now₁ j₁ = buildJobDocument c₂ now₂ j₂ := by
  rw [hc, hnow, hj]

/-- C7 witness: normalizing the sample posting twice with the same
source and timestamp yields identical documents. -/
theorem normalizer_deterministic_witness :
    buildJobDocument "figma" "2024-06-01T00:00:00+00:00" sampleJob
      = buildJobDocument "figma" "2024-06-01T00:00:00+00:00" sampleJob :=
  normalizer_deterministic "figma" "figma" "2024-06-01T00:00:00+00:00"
    "2024-06-01T00:00:00+00:00" sampleJob sampleJob rfl rfl rfl

/-- C8: the text sanitizer maps both a null input and the empty string
to the literal fallback `Not specified`. -/
theorem clean_html_text_fallback :
    clean_html_text none = "Not specified"
    ∧ clean_html_text (some "") = "Not specified" :=
  ⟨rfl, rfl⟩

/-- C9: the derived `jobType` is `Internship` exactly when the
lower-cased title contains the substring `intern`, and `Full-time`
otherwise; in particular `Software Engineering Intern` yields
`Internship` and `Backend Engineer` yields `Full-time`. -/
theorem jobType_derivation (c now : String) (j : RawJob) :
    ((buildJobDocument c now j).jobType = "Internship"
        ↔ ∃ pre post, (pyLower j.title).data = pre ++ "intern".data ++ post)
    ∧ ((buildJobDocument c now j).jobType = "Full-time"
        ↔ ¬ ∃ pre post, (pyLower j.title).data = pre ++ "intern".data ++ post)
    ∧ (buildJobDocument c now { j with title := "Software Engineering Intern" }).jobType
        = "Internship"
    ∧ (buildJobDocument c now { j with title := "Backend Engineer" }).jobType
        = "Full-time" := by
  refine ⟨?_, ?_, rfl, rfl⟩
  · rw [← containsSubstring_iff]
    cases hc : containsSubstring "intern".data (pyLower j.title).data with
    | false => simp [buildJobDocument, hc]
    | true => simp [buildJobDocument, hc]
  · rw [← containsSubstring_iff]
    cases hc : containsSubstring "intern".data (pyLower j.title).data with
    | false => simp [buildJobDocument, hc]
    | true => simp [buildJobDocument, hc]

/-- C10: a raw posting whose upstream JSON has no `location` key, or a
`location` object with no `name` key, is normalized with the silent
default location `Remote`. -/
theorem location_default (c now : String) (j : RawJob)
    (h : j.location = none ∨ j.location = some none) :
    (buildJobDocument c now j).location = "Remote" := by
  rcases h with h | h <;> simp [buildJobDocument, deriveLocation, h]

/-- C10 witness: the sample posting without a location key defaults to
`Remote`. -/
theorem location_default_witness :
    (buildJobDocument "figma" "2024-06-01T00:00:00+00:00" officeJob).location = "Remote" :=
  location_default "figma" "2024-06-01T00:00:00+00:00" officeJob (Or.inl rfl)

end Scrap
